import Mathlib

set_option autoImplicit false

namespace Machotech

/-!
Shallow embedding of the machotech-api request handlers.

The embedding models the JSON values stored in the jsonb machineData
column, the JavaScript coercions used by the product routes, the
multer file filter, and the category, product and auth route handlers
as pure functions from request data and an explicit store state to a
response and a new state.
-/

/-- JSON-like values as they occur in the machineData column: strings,
integers, booleans, arrays of strings (the images list), arrays of
integers (the categories list) and null. -/
inductive JVal where
  | jStr (s : String)
  | jInt (n : Int)
  | jBool (b : Bool)
  | jStrArr (l : List String)
  | jIntArr (l : List Int)
  | jNull
deriving DecidableEq, Repr

/-- A JavaScript object, as an ordered list of key and value bindings.
Later bindings shadow earlier ones, matching the semantics of object
spread, so that appending lists models spreading objects in order. -/
abbrev JObj := List (String × JVal)

/-- Property access on a JavaScript object: the value of the last
binding for the key, or none when the key is absent. -/
def lookupJ : JObj → String → Option JVal
  | [], _ => none
  | p :: rest, k =>
      match lookupJ rest k with
      | some v => some v
      | none => if p.1 == k then some p.2 else none

theorem lookupJ_append (a b : JObj) (k : String) :
    lookupJ (a ++ b) k =
      match lookupJ b k with
      | some v => some v
      | none => lookupJ a k := by
  induction a with
  | nil => cases h : lookupJ b k <;> simp [lookupJ, h]
  | cons p a ih =>
      show lookupJ (p :: (a ++ b)) k = _
      rw [lookupJ, ih]
      cases h : lookupJ b k <;> simp [lookupJ, h]

theorem lookupJ_eq_none_of_not_mem (b : JObj) (k : String)
    (h : k ∉ b.map Prod.fst) : lookupJ b k = none := by
  induction b with
  | nil => rfl
  | cons p rest ih =>
      simp only [List.map_cons, List.mem_cons] at h
      push_neg at h
      rw [lookupJ, ih h.2]
      have hne : (p.1 == k) = false := beq_eq_false_iff_ne.mpr (Ne.symm h.1)
      simp [hne]

/-- JavaScript values as they arrive in a multipart or JSON request
body field: undefined, a string, a boolean or a number. -/
inductive JSValue where
  | undef
  | vStr (s : String)
  | vBool (b : Bool)
  | vNum (n : Int)
deriving DecidableEq, Repr

/-- The boolean coercion used by the product create route, literally
the expression v === the string true, or v === true, or false. -/
def jsFlagTrue (v : JSValue) : Bool :=
  v == .vStr "true" || v == .vBool true

def isWsChar (c : Char) : Bool :=
  c == ' ' || c == '\t' || c == '\n' || c == '\r'

def digitsToNat (cs : List Char) : Nat :=
  cs.foldl (fun a c => a * 10 + (c.toNat - 48)) 0

/-- Value of a nonempty all-digit character list; none otherwise. -/
def allDigitsVal (cs : List Char) : Option Nat :=
  if cs.isEmpty then none
  else if cs.all Char.isDigit then some (digitsToNat cs) else none

/-- The value of a signed digit list, requiring every character after
the optional sign to be a digit. -/
def signedAllDigits : List Char → Option Int
  | '-' :: rest => (allDigitsVal rest).map (fun n => -(n : Int))
  | '+' :: rest => (allDigitsVal rest).map (fun n => (n : Int))
  | rest => (allDigitsVal rest).map (fun n => (n : Int))

/-- The JavaScript Number coercion applied to a string, modelled for
decimal integer literals: surrounding whitespace is trimmed, the empty
or all-whitespace string yields 0, a signed run of digits yields its
value, and anything else is NaN, modelled as none.  Fractional,
exponent and hexadecimal literals are outside the model. -/
def numFromStr (s : String) : Option Int :=
  let cs := (s.toList.dropWhile isWsChar).reverse.dropWhile isWsChar |>.reverse
  if cs.isEmpty then some 0 else signedAllDigits cs

/-- The JavaScript Number coercion on a request body value, with none
standing for NaN. -/
def jsNumber : JSValue → Option Int
  | .undef => none
  | .vBool true => some 1
  | .vBool false => some 0
  | .vNum n => some n
  | .vStr s => numFromStr s

/-- Literally the expression Number v logical-or 0 from the product
create route: NaN falls back to 0, and a zero result stays 0. -/
def numOrZero (v : JSValue) : Int :=
  match jsNumber v with
  | none => 0
  | some n => if n == 0 then 0 else n

theorem numOrZero_eq_getD (v : JSValue) :
    numOrZero v = (jsNumber v).getD 0 := by
  unfold numOrZero
  cases h : jsNumber v with
  | none => rfl
  | some n =>
      by_cases hn : n = 0
      · simp [hn]
      · simp [hn]

/-- The JavaScript parseInt applied to a string with the default radix:
leading whitespace is skipped, an optional sign is read, then the
longest leading run of digits gives the value; none models NaN. -/
def parseIntJS (s : String) : Option Int :=
  let cs := s.toList.dropWhile isWsChar
  match cs with
  | '-' :: rest =>
      let ds := rest.takeWhile Char.isDigit
      if ds.isEmpty then none else some (-(digitsToNat ds : Int))
  | '+' :: rest =>
      let ds := rest.takeWhile Char.isDigit
      if ds.isEmpty then none else some ((digitsToNat ds : Int))
  | rest =>
      let ds := rest.takeWhile Char.isDigit
      if ds.isEmpty then none else some ((digitsToNat ds : Int))

example : parseIntJS "12abc" = some 12 := by decide
example : parseIntJS "x" = none := by decide
example : parseIntJS "42" = some 42 := by decide

/-- Truth of the first character list starting the second one. -/
def startsWithCL : List Char → List Char → Bool
  | [], _ => true
  | _ :: _, [] => false
  | a :: as, b :: bs => a == b && startsWithCL as bs

/-- Truth of the first character list occurring inside the second. -/
def hasSub (n : List Char) : List Char → Bool
  | [] => startsWithCL n []
  | c :: rest => startsWithCL n (c :: rest) || hasSub n rest

/-- Substring containment on strings, modelling an unanchored regex
test against a literal alternative. -/
def strContains (hay needle : String) : Bool :=
  hasSub needle.toList hay.toList

/-- Lower-casing of a string, character by character. -/
def lowerStr (s : String) : String :=
  ⟨s.toList.map Char.toLower⟩

/-- The path.extname function on a plain file name: the part from the
last dot on, empty when there is no dot or when the only dot is the
leading character of the name. -/
def extname (s : String) : String :=
  let rev := s.toList.reverse
  match rev.findIdx? (· == '.') with
  | none => ""
  | some i => if i + 1 == rev.length then "" else ⟨'.' :: (rev.take i).reverse⟩

example : extname "photo.APNG" = ".APNG" := by decide
example : extname "photo" = "" := by decide
example : extname ".gitignore" = "" := by decide

/-- The regex test with pattern jpeg, jpg, png or webp as unanchored
alternatives: true when any of the four tokens occurs anywhere in the
string. -/
def allowedTypesTest (s : String) : Bool :=
  strContains s "jpeg" || strContains s "jpg" || strContains s "png" ||
    strContains s "webp"

/-- An uploaded file as multer sees it: the client-supplied original
name and MIME type, and the generated disk file name. -/
structure UploadFile where
  originalname : String
  mimetype : String
  filename : String
deriving DecidableEq, Repr

/-- The fileFilter of both upload configurations: the lower-cased
extension of the original name and the MIME type must each pass the
unanchored allowed-types regex test. -/
def fileFilterAccepts (f : UploadFile) : Bool :=
  allowedTypesTest (lowerStr (extname f.originalname)) &&
    allowedTypesTest f.mimetype

/-- Files written by the product array upload: the product fileFilter
answers cb null false on a failing file, so multer skips it silently
and stores only the accepted files. -/
def acceptedFiles (files : List UploadFile) : List UploadFile :=
  files.filter fileFilterAccepts

/-- The category fileFilter outcome: none on an accepted file, and the
error message passed to cb on a rejected one, which aborts the upload
before the file is written. -/
def categoryFilterError (f : UploadFile) : Option String :=
  if fileFilterAccepts f then none
  else some "Only image files (jpeg, jpg, png, webp) are allowed"

/-- The allow-list of extensions named by the spec. -/
def allowListExt : List String := [".jpeg", ".jpg", ".png", ".webp"]

/-- The allow-list of image MIME types named by the spec. -/
def allowListMime : List String :=
  ["image/jpeg", "image/jpg", "image/png", "image/webp"]

/-- A category row: generated id, name, description and the nullable
imageUrl column. -/
structure Category where
  id : Int
  name : String
  description : String
  imageUrl : Option String
deriving DecidableEq, Repr

/-- State touched by the category routes: the category table, the next
generated identity value, and the disk paths present in the uploads
directory. -/
structure CatStore where
  categories : List Category
  nextId : Int
  files : List String
deriving DecidableEq, Repr

def emptyCatStore : CatStore := ⟨[], 1, []⟩

/-- Responses produced by the category routes. -/
inductive CatResp where
  | badRequest (e : String)
  | validationFail
  | conflict (e : String)
  | created (c : Category)
  | found (c : Category)
  | notFound (e : String)
  | deleted (success : Bool) (message : String)
deriving DecidableEq, Repr

def isBadRequestResp : CatResp → Bool
  | .badRequest _ => true
  | _ => false

/-- URL under which a stored category image is served. -/
def catUrlOf (fn : String) : String := "/uploads/categories/" ++ fn

/-- Disk path of an image URL: the handlers join the working directory
with the URL stripped of its leading slash. -/
def diskPathOf (url : String) : String :=
  match url.toList with
  | '/' :: rest => ⟨rest⟩
  | _ => url

def quoteCh : String := String.singleton (Char.ofNat 39)

def squote (s : String) : String := quoteCh ++ s ++ quoteCh

/-- The category create handler.  Multer writes an accepted upload
before the handler body runs, then the handler requires truthy name
and description, answers Conflict when a category with the same name
is already stored, and otherwise inserts the new row. -/
def createCategory (name description : String) (file : Option String)
    (st : CatStore) : CatResp × CatStore :=
  let st1 : CatStore :=
    match file with
    | some fn => { st with files := st.files ++ [diskPathOf (catUrlOf fn)] }
    | none => st
  if name == "" || description == "" then
    (.badRequest "Name and description are required", st1)
  else if st1.categories.any (fun c => c.name == name) then
    (.conflict "Category already exists", st1)
  else
    let newCat : Category :=
      ⟨st1.nextId, name, description, file.map catUrlOf⟩
    (.created newCat,
     { st1 with categories := st1.categories ++ [newCat],
                nextId := st1.nextId + 1 })

/-- The category get-by-id handler: parseInt on the path parameter, a
400 answer when it is NaN, otherwise a lookup of the row. -/
def getCategoryById (idStr : String) (st : CatStore) : CatResp :=
  match parseIntJS idStr with
  | none => .badRequest "Invalid category ID format"
  | some id =>
      match st.categories.find? (fun c => c.id == id) with
      | none => .notFound "Category not found"
      | some c => .found c

/-- The category update handler after the numeric id has been parsed:
truthy name and description fields overwrite, a new upload replaces
the old image with a best-effort delete of the old file, and no
duplicate-name check is performed. -/
def updateCategory (id : Int) (name? description? : Option String)
    (file : Option String) (st : CatStore) : CatResp × CatStore :=
  let st1 : CatStore :=
    match file with
    | some fn => { st with files := st.files ++ [diskPathOf (catUrlOf fn)] }
    | none => st
  match st1.categories.find? (fun c => c.id == id) with
  | none => (.notFound "Category not found", st1)
  | some c =>
      let st2 : CatStore :=
        match file, c.imageUrl with
        | some _, some u =>
            if u == "" then st1
            else { st1 with files := st1.files.erase (diskPathOf u) }
        | _, _ => st1
      let nameUpd : Option String :=
        match name? with
        | some n => if n == "" then none else some n
        | none => none
      let descUpd : Option String :=
        match description? with
        | some d => if d == "" then none else some d
        | none => none
      let applyU : Category → Category := fun x =>
        { x with name := nameUpd.getD x.name,
                 description := descUpd.getD x.description,
                 imageUrl :=
                   match file with
                   | some fn => some (catUrlOf fn)
                   | none => x.imageUrl }
      (.found (applyU c),
       { st2 with categories :=
           st2.categories.map (fun x => if x.id == id then applyU x else x) })

/-- The category delete handler after the validateRequest middleware
has accepted the numeric id: missing row answers NotFound, otherwise
the truthy image URL is unlinked best-effort and the row is removed. -/
def deleteCategoryChecked (id : Int) (st : CatStore) : CatResp × CatStore :=
  match st.categories.find? (fun c => c.id == id) with
  | none => (.notFound "Category not found", st)
  | some c =>
      let st1 : CatStore :=
        match c.imageUrl with
        | some u =>
            if u == "" then st
            else { st with files := st.files.erase (diskPathOf u) }
        | none => st
      (.deleted true ("Successfully deleted " ++ squote c.name),
       { st1 with categories :=
           st1.categories.filter (fun x => !(x.id == id)) })

/-- The zod pattern of the id params schema: one or more digits,
anchored at both ends. -/
def isNumericIdStr (s : String) : Bool :=
  !s.isEmpty && s.toList.all Char.isDigit

/-- The category delete route including its validateRequest
middleware: a non-numeric id is rejected with a 400 validation answer
before the handler runs. -/
def deleteCategoryRoute (idStr : String) (st : CatStore) :
    CatResp × CatStore :=
  if isNumericIdStr idStr then
    deleteCategoryChecked ((parseIntJS idStr).getD 0) st
  else (.validationFail, st)

/-- A product row as declared in the schema, with the jsonb
machineData column held as a JavaScript object. -/
structure Product where
  id : Int
  name : String
  price : Option String
  isContactForPrice : Bool
  description : String
  machineData : JObj
  showInHero : Bool
  heroIndex : Int
deriving DecidableEq, Repr

/-- State touched by the product routes. -/
structure ProdStore where
  products : List Product
  nextId : Int
  files : List String
deriving DecidableEq, Repr

def emptyProdStore : ProdStore := ⟨[], 1, []⟩

/-- A JSON-carrying form field after the JSON.parse attempt of the
handler: absent, successfully parsed, or malformed. -/
inductive FieldJSON where
  | absent
  | parsed (o : JObj)
  | malformed
deriving DecidableEq, Repr

/-- The categoryIds form field after the parse, map Number and filter
NaN chain of the handler: absent, the resulting integer list, or
malformed JSON. -/
inductive FieldIds where
  | absentIds
  | parsedIds (l : List Int)
  | malformedIds
deriving DecidableEq, Repr

def bagOfField : FieldJSON → JObj
  | .parsed o => o
  | _ => []

def idsOfField : FieldIds → List Int
  | .parsedIds l => l
  | _ => []

/-- The product create request body.  Name and description arrive as
form strings, with the empty string standing for an absent or empty
field, both falsy in the handler. -/
structure ProductCreateBody where
  name : String
  description : String
  price : Option String
  isContactForPrice : JSValue
  showInHero : JSValue
  heroIndex : JSValue
  machineData : FieldJSON
  categoryIds : FieldIds
deriving DecidableEq, Repr

/-- Responses produced by the product routes. -/
inductive ProdResp where
  | badRequestP (e : String)
  | validationFailP
  | createdP (p : Product)
  | okP (p : Product)
  | okPC (p : Product) (cats : List Category)
  | notFoundP (e : String)
  | deletedP (success : Bool) (message : String)
deriving DecidableEq, Repr

def isBadRequestRespP : ProdResp → Bool
  | .badRequestP _ => true
  | _ => false

/-- URL under which a stored product image is served. -/
def prodUrlOf (fn : String) : String := "/uploads/products/" ++ fn

/-- The product create handler.  Multer writes the accepted files
first; the handler requires truthy name and description, rejects
malformed machineData or categoryIds JSON with 400, and inserts a row
whose machineData is the client bag spread first, then the computed
images and categories keys, which therefore overwrite. -/
def createProduct (b : ProductCreateBody) (files : List UploadFile)
    (st : ProdStore) : ProdResp × ProdStore :=
  let accepted := acceptedFiles files
  let st1 : ProdStore :=
    { st with files :=
        st.files ++ accepted.map (fun f => diskPathOf (prodUrlOf f.filename)) }
  if b.name == "" || b.description == "" then
    (.badRequestP "Name and description are required", st1)
  else if b.machineData == .malformed then
    (.badRequestP "Invalid machine data format", st1)
  else if b.categoryIds == .malformedIds then
    (.badRequestP "Invalid category IDs format", st1)
  else
    let imageUrls := accepted.map (fun f => prodUrlOf f.filename)
    let p : Product :=
      { id := st1.nextId,
        name := b.name,
        price :=
          match b.price with
          | some s => if s == "" then none else some s
          | none => none,
        isContactForPrice := jsFlagTrue b.isContactForPrice,
        description := b.description,
        machineData :=
          bagOfField b.machineData ++
            [("images", JVal.jStrArr imageUrls),
             ("categories", JVal.jIntArr (idsOfField b.categoryIds))],
        showInHero := jsFlagTrue b.showInHero,
        heroIndex := numOrZero b.heroIndex }
    (.createdP p,
     { st1 with products := st1.products ++ [p], nextId := st1.nextId + 1 })

/-- The categories list read back from a machineData bag, as the
handlers cast it: the value of the categories key when it is an
integer array, none otherwise. -/
def mcCategories (bag : JObj) : Option (List Int) :=
  match lookupJ bag "categories" with
  | some (.jIntArr l) => some l
  | _ => none

/-- Category resolution of the product list handler: every category
row is kept whose id is a member of the optionally present categories
list, with an absent list yielding no row. -/
def resolveCategoriesList (cats : List Category)
    (mc : Option (List Int)) : List Category :=
  cats.filter (fun c =>
    match mc with
    | some l => l.contains c.id
    | none => false)

/-- Category resolution of the product get-by-id handler: when the
optionally chained length of the categories list is truthy, the rows
whose id is in the list are selected with an inArray query, modelled
as a filter of the table; otherwise the resolved list stays empty. -/
def resolveCategoriesById (cats : List Category)
    (mc : Option (List Int)) : List Category :=
  match mc with
  | some l => if l.length == 0 then [] else cats.filter (fun c => l.contains c.id)
  | none => []

/-- The product list handler: every stored product paired with its
resolved category rows. -/
def listProducts (st : ProdStore) (cats : List Category) :
    List (Product × List Category) :=
  st.products.map (fun p =>
    (p, resolveCategoriesList cats (mcCategories p.machineData)))

/-- The product get-by-id handler: parseInt on the path parameter, 400
when it is NaN, then the row lookup and the category resolution. -/
def getProductById (idStr : String) (st : ProdStore)
    (cats : List Category) : ProdResp :=
  match parseIntJS idStr with
  | none => .badRequestP "Invalid product ID format"
  | some id =>
      match st.products.find? (fun p => p.id == id) with
      | none => .notFoundP "Product not found"
      | some p =>
          .okPC p (resolveCategoriesById cats (mcCategories p.machineData))

/-- The product update request body.  Fields are raw update values
stored without coercion; name and description are overwritten only
when truthy. -/
structure ProductUpdateBody where
  name : Option String
  description : Option String
  price : Option String
  isContactForPrice : Option Bool
  showInHero : Option Bool
  heroIndex : Option Int
  machineData : FieldJSON
  categoryIds : FieldIds
deriving DecidableEq, Repr

/-- Bag entry contributed by a supplied categoryIds update field. -/
def catPatch : FieldIds → JObj
  | .parsedIds l => [("categories", JVal.jIntArr l)]
  | _ => []

/-- Keys of the machineData bag that a product update payload
supplies: the keys of its parsed machineData object, plus the
categories key when categoryIds is supplied. -/
def suppliedBagKeys (b : ProductUpdateBody) : List String :=
  (bagOfField b.machineData).map Prod.fst ++
    (match b.categoryIds with
     | .parsedIds _ => ["categories"]
     | _ => [])

/-- The product update handler after the numeric id has been parsed.
Multer writes accepted uploads first, though the handler never reads
them.  A missing row answers NotFound, malformed JSON answers 400, and
when machineData or categoryIds is supplied the new bag is the
existing bag spread first, then the parsed update bag, then the
categories patch, applied to every row with the id. -/
def updateProduct (id : Int) (b : ProductUpdateBody)
    (files : List UploadFile) (st : ProdStore) : ProdResp × ProdStore :=
  let accepted := acceptedFiles files
  let st1 : ProdStore :=
    { st with files :=
        st.files ++ accepted.map (fun f => diskPathOf (prodUrlOf f.filename)) }
  match st1.products.find? (fun p => p.id == id) with
  | none => (.notFoundP "Product not found", st1)
  | some p =>
      if b.machineData == .malformed then
        (.badRequestP "Invalid machine data format", st1)
      else if b.categoryIds == .malformedIds then
        (.badRequestP "Invalid category IDs format", st1)
      else
        let mdUpd : Option JObj :=
          if b.machineData == .absent && b.categoryIds == .absentIds then none
          else some (p.machineData ++ bagOfField b.machineData ++
                       catPatch b.categoryIds)
        let nameUpd : Option String :=
          match b.name with
          | some n => if n == "" then none else some n
          | none => none
        let descUpd : Option String :=
          match b.description with
          | some d => if d == "" then none else some d
          | none => none
        let applyU : Product → Product := fun x =>
          { x with
              name := nameUpd.getD x.name,
              description := descUpd.getD x.description,
              price :=
                match b.price with
                | some v => some v
                | none => x.price,
              isContactForPrice := b.isContactForPrice.getD x.isContactForPrice,
              showInHero := b.showInHero.getD x.showInHero,
              heroIndex := b.heroIndex.getD x.heroIndex,
              machineData := mdUpd.getD x.machineData }
        (.okP (applyU p),
         { st1 with products :=
             st1.products.map (fun x => if x.id == id then applyU x else x) })

/-- A user row: generated id, unique username and the stored bcrypt
hash. -/
structure User where
  id : Int
  username : String
  password : String
deriving DecidableEq, Repr

/-- The payload of a signed token, modelling jwt.sign at the contract
level: the embedded userId and username can be decoded back. -/
structure AuthToken where
  userId : Int
  username : String
deriving DecidableEq, Repr

def generateToken (userId : Int) (username : String) : AuthToken :=
  ⟨userId, username⟩

def decodeToken (t : AuthToken) : Int × String := (t.userId, t.username)

/-- Responses produced by the login route. -/
inductive LoginResp where
  | badRequestL
  | unauthorizedL (e : String)
  | okL (token : AuthToken) (id : Int) (username : String)
deriving DecidableEq, Repr

/-- The login handler.  The zod schema requires a username of at least
three and a password of at least six characters; then the user is
looked up by username and the bcrypt comparison decides between 401
and the token answer.  The bcrypt comparison is an external library
call and is passed in as an abstract function cmp. -/
def login (cmp : String → String → Bool) (us : List User)
    (username password : String) : LoginResp :=
  if username.length < 3 || password.length < 6 then .badRequestL
  else
    match us.find? (fun u => u.username == username) with
    | none => .unauthorizedL "Invalid credentials"
    | some u =>
        if cmp password u.password then
          .okL (generateToken u.id u.username) u.id u.username
        else .unauthorizedL "Invalid credentials"

/-! Concrete stores used by witnesses and counterexamples. -/

def catStoreWith12 : CatStore :=
  ⟨[⟨12, "Pumps", "Industrial pumps unit", none⟩], 13, []⟩

def catStoreImg : CatStore :=
  ⟨[⟨7, "Pumps", "Industrial pumps unit", some "/uploads/categories/a.png"⟩],
   8, ["uploads/categories/a.png"]⟩

/-- C1: a create-category request whose name equals the name of an
already-stored category answers Conflict and leaves the stored
category rows unchanged.  The request is well formed, meaning its name
and description fields are truthy. -/
theorem categoryCreate_conflict_on_duplicate_name
    (name description : String) (file : Option String) (st : CatStore)
    (h1 : name ≠ "") (h2 : description ≠ "")
    (h3 : ∃ c ∈ st.categories, c.name = name) :
    ∃ st2, createCategory name description file st =
        (.conflict "Category already exists", st2) ∧
      st2.categories = st.categories := by
  have hb1 : (name == "") = false := beq_eq_false_iff_ne.mpr h1
  have hb2 : (description == "") = false := beq_eq_false_iff_ne.mpr h2
  have hany : st.categories.any (fun c => c.name == name) = true := by
    rw [List.any_eq_true]
    obtain ⟨c, hc, he⟩ := h3
    exact ⟨c, hc, beq_iff_eq.mpr he⟩
  cases file with
  | none =>
      exact ⟨st, by simp [createCategory, hb1, hb2, hany], rfl⟩
  | some fn =>
      exact ⟨{ st with files := st.files ++ [diskPathOf (catUrlOf fn)] },
             by simp [createCategory, hb1, hb2, hany], rfl⟩

/-- C1 witness: creating a second Pumps category against a store that
already holds one answers Conflict with the rows unchanged. -/
theorem categoryCreate_conflict_on_duplicate_name_witness :
    ∃ st2, createCategory "Pumps" "Another pumps description" none
        catStoreWith12 = (.conflict "Category already exists", st2) ∧
      st2.categories = catStoreWith12.categories :=
  categoryCreate_conflict_on_duplicate_name "Pumps"
    "Another pumps description" none catStoreWith12
    (by decide) (by decide)
    ⟨⟨12, "Pumps", "Industrial pumps unit", none⟩, by decide, rfl⟩

/-- C2: deleting a stored category removes the disk file of its truthy
image URL and removes the row, answering a success message; deleting a
missing id answers NotFound and changes nothing. -/
theorem categoryDelete_spec (id : Int) (st : CatStore) :
    (∀ c, st.categories.find? (fun x => x.id == id) = some c →
      deleteCategoryChecked id st =
        (.deleted true ("Successfully deleted " ++ squote c.name),
         { categories := st.categories.filter (fun x => !(x.id == id)),
           nextId := st.nextId,
           files :=
             match c.imageUrl with
             | some u =>
                 if u == "" then st.files else st.files.erase (diskPathOf u)
             | none => st.files })) ∧
    (st.categories.find? (fun x => x.id == id) = none →
      deleteCategoryChecked id st = (.notFound "Category not found", st)) := by
  constructor
  · intro c hc
    simp only [deleteCategoryChecked, hc]
    cases hio : c.imageUrl with
    | none => rfl
    | some u =>
        by_cases hu : u = ""
        · simp [hu]
        · have hbu : (u == "") = false := beq_eq_false_iff_ne.mpr hu
          simp [hbu]
  · intro h
    simp only [deleteCategoryChecked, h]

/-- C2 witness: deleting the stored category with id 7 removes its
image file and its row, and deleting the missing id 9 answers NotFound
without changing the store. -/
theorem categoryDelete_spec_witness :
    deleteCategoryChecked 7 catStoreImg =
      (.deleted true ("Successfully deleted " ++ squote "Pumps"),
       ⟨[], 8, []⟩) ∧
    deleteCategoryChecked 9 catStoreImg =
      (.notFound "Category not found", catStoreImg) := by
  constructor
  · have h := (categoryDelete_spec 7 catStoreImg).1
      ⟨7, "Pumps", "Industrial pumps unit", some "/uploads/categories/a.png"⟩
      (by decide)
    rw [h]
    decide
  · exact (categoryDelete_spec 9 catStoreImg).2 (by decide)

/-- C3 counterexample: the id 12abc is not a numeric string, yet the
get-by-id handlers do not answer 400: parseInt keeps the numeric
leading part 12, the category handler returns the stored row with id
12, and the product handler performs the lookup and answers 404 on an
empty store. -/
theorem byIdRoutes_accept_12abc :
    parseIntJS "12abc" = some 12 ∧
    getCategoryById "12abc" catStoreWith12 =
      .found ⟨12, "Pumps", "Industrial pumps unit", none⟩ ∧
    isBadRequestResp (getCategoryById "12abc" catStoreWith12) = false ∧
    getProductById "12abc" emptyProdStore [] =
      .notFoundP "Product not found" ∧
    isBadRequestRespP (getProductById "12abc" emptyProdStore []) = false := by
  decide

/-- C3 (amended): the get-by-id handlers parse the id with parseInt
and answer 400 without reading the store only when the id has no
leading integer part; an id such as 12abc is treated as the number 12.
The delete routes alone validate the id against an anchored digit
pattern. -/
theorem byIdRoutes_badRequest_on_nonParsable (s : String) (stc : CatStore)
    (stp : ProdStore) (cats : List Category) (h : parseIntJS s = none) :
    getCategoryById s stc = .badRequest "Invalid category ID format" ∧
    getProductById s stp cats = .badRequestP "Invalid product ID format" := by
  constructor
  · simp [getCategoryById, h]
  · simp [getProductById, h]

/-- C3 witness: the id x has no leading digits, so both get-by-id
handlers answer 400 on concrete stores. -/
theorem byIdRoutes_badRequest_on_nonParsable_witness :
    getCategoryById "x" catStoreWith12 =
      .badRequest "Invalid category ID format" ∧
    getProductById "x" emptyProdStore [] =
      .badRequestP "Invalid product ID format" :=
  byIdRoutes_badRequest_on_nonParsable "x" catStoreWith12 emptyProdStore []
    (by decide)

def apngFile : UploadFile := ⟨"diagram.apng", "image/apng", "gen.apng"⟩

def gifFile : UploadFile := ⟨"anim.gif", "image/gif", "gen.gif"⟩

/-- C4 counterexample: the extension .apng and the MIME type image/apng
are outside the allow-list, yet both pass the unanchored regex test
because they contain png, so the file filter accepts the file and the
array upload writes it. -/
theorem uploadFilter_accepts_apng :
    fileFilterAccepts apngFile = true ∧
    acceptedFiles [apngFile] = [apngFile] ∧
    categoryFilterError apngFile = none ∧
    allowListExt.contains (lowerStr (extname apngFile.originalname)) = false ∧
    allowListMime.contains apngFile.mimetype = false := by
  decide

/-- C4 (amended): an uploaded file whose lower-cased extension or whose
MIME type contains none of jpeg, jpg, png, webp as a substring is
rejected by the file filter and not written: the product array upload
skips it silently and the category upload raises the filter error.  A
value outside the allow-list that merely contains an allowed token,
such as .apng, passes the filter. -/
theorem uploadFilter_rejects_nonmatching (f : UploadFile)
    (files : List UploadFile)
    (h : allowedTypesTest (lowerStr (extname f.originalname)) = false ∨
         allowedTypesTest f.mimetype = false) :
    fileFilterAccepts f = false ∧
    f ∉ acceptedFiles files ∧
    categoryFilterError f =
      some "Only image files (jpeg, jpg, png, webp) are allowed" := by
  have hf : fileFilterAccepts f = false := by
    unfold fileFilterAccepts
    rcases h with h | h <;> simp [h]
  refine ⟨hf, ?_, ?_⟩
  · intro hmem
    simp only [acceptedFiles] at hmem
    have hmem2 := List.of_mem_filter hmem
    rw [hf] at hmem2
    exact absurd hmem2 (by simp)
  · simp [categoryFilterError, hf]

/-- C4 witness: a gif upload fails both regex tests, is skipped by the
product upload and raises the category filter error. -/
theorem uploadFilter_rejects_nonmatching_witness :
    fileFilterAccepts gifFile = false ∧
    gifFile ∉ acceptedFiles [gifFile] ∧
    categoryFilterError gifFile =
      some "Only image files (jpeg, jpg, png, webp) are allowed" :=
  uploadFilter_rejects_nonmatching gifFile [gifFile] (Or.inl (by decide))

theorem resolveCategories_list_eq_byId (cats : List Category)
    (mc : Option (List Int)) :
    resolveCategoriesList cats mc = resolveCategoriesById cats mc := by
  cases mc with
  | none => simp [resolveCategoriesList, resolveCategoriesById]
  | some l =>
      by_cases hl : l = []
      · subst hl
        simp [resolveCategoriesList, resolveCategoriesById, List.contains]
      · have hlen : (l.length == 0) = false := by
          simp [List.length_eq_zero, hl]
        simp [resolveCategoriesList, resolveCategoriesById, hlen]

/-- C5: the category resolution of the product list handler agrees,
product by product, with the category resolution of the get-by-id
handler: the list handler attaches to every stored product exactly the
category rows the get-by-id handler would select for the same
categories list. -/
theorem productList_getById_categories_agree (st : ProdStore)
    (cats : List Category) :
    listProducts st cats =
      st.products.map (fun p =>
        (p, resolveCategoriesById cats (mcCategories p.machineData))) := by
  unfold listProducts
  simp only [resolveCategories_list_eq_byId]

theorem lookupJ_merge_untouched (old bag patch : JObj) (k : String)
    (hkb : k ∉ bag.map Prod.fst) (hkp : k ∉ patch.map Prod.fst) :
    lookupJ (old ++ bag ++ patch) k = lookupJ old k := by
  rw [List.append_assoc, lookupJ_append, lookupJ_append,
      lookupJ_eq_none_of_not_mem patch k hkp,
      lookupJ_eq_none_of_not_mem bag k hkb]

/-- C6: a partial product update preserves every machineData key it
does not supply: for any key outside the keys of the parsed
machineData update and outside the categories key targeted by a
supplied categoryIds field, the updated row holds the old value.  An
update supplying only price supplies no bag key, so the whole bag,
images included, is untouched. -/
theorem productUpdate_preserves_untouched_bag_keys
    (id : Int) (b : ProductUpdateBody) (files : List UploadFile)
    (st : ProdStore) (p : Product)
    (hp : st.products.find? (fun x => x.id == id) = some p)
    (hmd : b.machineData ≠ .malformed) (hci : b.categoryIds ≠ .malformedIds)
    (k : String) (hk : k ∉ suppliedBagKeys b) :
    ∃ q st2, updateProduct id b files st = (.okP q, st2) ∧
      lookupJ q.machineData k = lookupJ p.machineData k := by
  have hmd' : (b.machineData == .malformed) = false :=
    beq_eq_false_iff_ne.mpr hmd
  have hci' : (b.categoryIds == .malformedIds) = false :=
    beq_eq_false_iff_ne.mpr hci
  have hkb : k ∉ (bagOfField b.machineData).map Prod.fst := by
    intro hmem
    exact hk (by simp [suppliedBagKeys, hmem])
  have hkp : k ∉ (catPatch b.categoryIds).map Prod.fst := by
    intro hmem
    apply hk
    unfold catPatch at hmem
    unfold suppliedBagKeys
    cases hcase : b.categoryIds with
    | parsedIds l =>
        rw [hcase] at hmem
        simp at hmem
        simp [hcase, hmem]
    | absentIds => rw [hcase] at hmem; simp at hmem
    | malformedIds => rw [hcase] at hmem; simp at hmem
  simp only [updateProduct, hp, hmd', hci', Bool.false_eq_true, if_false]
  refine ⟨_, _, rfl, ?_⟩
  by_cases habs : (b.machineData == .absent && b.categoryIds == .absentIds) = true
  · simp [habs]
  · rw [Bool.not_eq_true] at habs
    simp only [habs, if_false, Option.getD_some]
    exact lookupJ_merge_untouched p.machineData (bagOfField b.machineData)
      (catPatch b.categoryIds) k hkb hkp

def prodRowEx : Product :=
  { id := 1, name := "Pump", price := some "10",
    isContactForPrice := false,
    description := "Industrial pump unit",
    machineData :=
      [("images", JVal.jStrArr ["/uploads/products/a.png"]),
       ("categories", JVal.jIntArr [1])],
    showInHero := false, heroIndex := 0 }

def prodStoreEx : ProdStore := ⟨[prodRowEx], 2, ["uploads/products/a.png"]⟩

def priceOnlyUpdate : ProductUpdateBody :=
  { name := none, description := none, price := some "99",
    isContactForPrice := none, showInHero := none, heroIndex := none,
    machineData := .absent, categoryIds := .absentIds }

/-- C6 witness: updating only the price of the stored product leaves
the images key of its machineData untouched. -/
theorem productUpdate_preserves_untouched_bag_keys_witness :
    ∃ q st2, updateProduct 1 priceOnlyUpdate [] prodStoreEx =
        (.okP q, st2) ∧
      lookupJ q.machineData "images" =
        lookupJ prodRowEx.machineData "images" :=
  productUpdate_preserves_untouched_bag_keys 1 priceOnlyUpdate [] prodStoreEx
    prodRowEx (by decide) (by decide) (by decide) "images" (by decide)

theorem jsFlagTrue_iff (v : JSValue) :
    jsFlagTrue v = true ↔ (v = .vStr "true" ∨ v = .vBool true) := by
  simp [jsFlagTrue, Bool.or_eq_true, beq_iff_eq]

/-- C7: a successful product create stores isContactForPrice and
showInHero as true exactly when the request field is the string true
or the boolean true, defaulting to false otherwise, absent fields
included, and stores heroIndex as the Number coercion of its field
with NaN and absence falling back to 0. -/
theorem productCreate_coercions (b : ProductCreateBody)
    (files : List UploadFile) (st : ProdStore)
    (h1 : b.name ≠ "") (h2 : b.description ≠ "")
    (hmd : b.machineData ≠ .malformed) (hci : b.categoryIds ≠ .malformedIds) :
    ∃ p st2, createProduct b files st = (.createdP p, st2) ∧
      (p.isContactForPrice = true ↔
        (b.isContactForPrice = .vStr "true" ∨
          b.isContactForPrice = .vBool true)) ∧
      (p.showInHero = true ↔
        (b.showInHero = .vStr "true" ∨ b.showInHero = .vBool true)) ∧
      p.heroIndex = (jsNumber b.heroIndex).getD 0 := by
  have hb1 : (b.name == "") = false := beq_eq_false_iff_ne.mpr h1
  have hb2 : (b.description == "") = false := beq_eq_false_iff_ne.mpr h2
  have hmd' : (b.machineData == .malformed) = false :=
    beq_eq_false_iff_ne.mpr hmd
  have hci' : (b.categoryIds == .malformedIds) = false :=
    beq_eq_false_iff_ne.mpr hci
  simp only [createProduct, hb1, hb2, hmd', hci', Bool.or_self,
    Bool.false_eq_true, if_false]
  exact ⟨_, _, rfl, jsFlagTrue_iff _, jsFlagTrue_iff _, numOrZero_eq_getD _⟩

/-- C7 witness: a create with isContactForPrice the string true, an
absent showInHero and a non-numeric heroIndex stores true, false
and 0. -/
theorem productCreate_coercions_witness :
    ∃ p st2,
      createProduct
        ⟨"Pump", "Industrial pump unit", none, .vStr "true", .undef,
         .vStr "abc", .absent, .absentIds⟩ [] emptyProdStore =
        (.createdP p, st2) ∧
      ((p.isContactForPrice = true ↔
        ((.vStr "true" : JSValue) = .vStr "true" ∨
          (.vStr "true" : JSValue) = .vBool true)) ∧
      (p.showInHero = true ↔
        ((.undef : JSValue) = .vStr "true" ∨ (.undef : JSValue) = .vBool true)) ∧
      p.heroIndex = (jsNumber (.vStr "abc")).getD 0) := by
  have h := productCreate_coercions
    ⟨"Pump", "Industrial pump unit", none, .vStr "true", .undef,
     .vStr "abc", .absent, .absentIds⟩ [] emptyProdStore
    (by decide) (by decide) (by decide) (by decide)
  exact h

/-- C9: a successful product create stores a machineData bag whose
images key is exactly the URL list of the files accepted in the
request and whose categories key is exactly the parsed category id
list, whatever images or categories keys the client bag supplied,
because the server entries are spread after the client bag. -/
theorem productCreate_server_bag_keys_win (b : ProductCreateBody)
    (files : List UploadFile) (st : ProdStore) (bag : JObj) (ids : List Int)
    (h1 : b.name ≠ "") (h2 : b.description ≠ "")
    (hmd : b.machineData = .parsed bag) (hci : b.categoryIds = .parsedIds ids) :
    ∃ p st2, createProduct b files st = (.createdP p, st2) ∧
      lookupJ p.machineData "images" =
        some (.jStrArr
          ((acceptedFiles files).map (fun f => prodUrlOf f.filename))) ∧
      lookupJ p.machineData "categories" = some (.jIntArr ids) := by
  have hb1 : (b.name == "") = false := beq_eq_false_iff_ne.mpr h1
  have hb2 : (b.description == "") = false := beq_eq_false_iff_ne.mpr h2
  have hmd' : (b.machineData == .malformed) = false := by
    rw [hmd]; rfl
  have hci' : (b.categoryIds == .malformedIds) = false := by
    rw [hci]; rfl
  have hci2 : idsOfField b.categoryIds = ids := by rw [hci]; rfl
  have e1 : ∀ (x y : JVal),
      lookupJ [("images", x), ("categories", y)] "images" = some x := by
    intro x y
    have hc : (("categories" : String) == "images") = false := by decide
    have hi : (("images" : String) == "images") = true := by decide
    simp [lookupJ, hc, hi]
  have e2 : ∀ (x y : JVal),
      lookupJ [("images", x), ("categories", y)] "categories" = some y := by
    intro x y
    have hc : (("categories" : String) == "categories") = true := by decide
    simp [lookupJ, hc]
  simp only [createProduct, hb1, hb2, hmd', hci', hci2, Bool.or_self,
    Bool.false_eq_true, if_false]
  refine ⟨_, _, rfl, ?_, ?_⟩
  · rw [lookupJ_append, e1]
  · rw [lookupJ_append, e2]

def spoofingBody : ProductCreateBody :=
  ⟨"Pump", "Industrial pump unit", none, .undef, .undef, .undef,
   .parsed [("images", .jStrArr ["evil.png"]), ("categories", .jIntArr [99]),
            ("power", .jStr "5kW")],
   .parsedIds [1, 2]⟩

def pngUpload : UploadFile := ⟨"photo.png", "image/png", "gen.png"⟩

/-- C9 witness: a create whose client bag tries to smuggle images and
categories values still stores the server-computed URL list and parsed
id list. -/
theorem productCreate_server_bag_keys_win_witness :
    ∃ p st2, createProduct spoofingBody [pngUpload] emptyProdStore =
        (.createdP p, st2) ∧
      lookupJ p.machineData "images" =
        some (.jStrArr
          ((acceptedFiles [pngUpload]).map (fun f => prodUrlOf f.filename))) ∧
      lookupJ p.machineData "categories" = some (.jIntArr [1, 2]) :=
  productCreate_server_bag_keys_win spoofingBody [pngUpload] emptyProdStore
    [("images", .jStrArr ["evil.png"]), ("categories", .jIntArr [99]),
     ("power", .jStr "5kW")] [1, 2]
    (by decide) (by decide) rfl rfl

/-- C8: a well-formed login answers Unauthorized with the message
Invalid credentials when no user has the username or when the bcrypt
comparison fails, and otherwise answers 200 with a signed token that
decodes back to the userId and username of the matched user. -/
theorem login_spec (cmp : String → String → Bool) (us : List User)
    (username password : String)
    (hu : 3 ≤ username.length) (hp : 6 ≤ password.length) :
    (us.find? (fun u => u.username == username) = none →
      login cmp us username password = .unauthorizedL "Invalid credentials") ∧
    (∀ u, us.find? (fun u => u.username == username) = some u →
      (cmp password u.password = false →
        login cmp us username password =
          .unauthorizedL "Invalid credentials") ∧
      (cmp password u.password = true →
        login cmp us username password =
          .okL (generateToken u.id u.username) u.id u.username ∧
        decodeToken (generateToken u.id u.username) = (u.id, u.username))) := by
  have h1 : ¬ username.length < 3 := Nat.not_lt.mpr hu
  have h2 : ¬ password.length < 6 := Nat.not_lt.mpr hp
  constructor
  · intro hfind
    simp [login, h1, h2, hfind]
  · intro u hfind
    constructor
    · intro hcmp
      simp [login, h1, h2, hfind, hcmp]
    · intro hcmp
      exact ⟨by simp [login, h1, h2, hfind, hcmp], rfl⟩

def usersEx : List User := [⟨1, "admin", "hashed:secret123"⟩]

def cmpEx (password hash : String) : Bool := hash == "hashed:" ++ password

/-- C8 witness: the wrong password and an unknown username answer 401
with Invalid credentials, and the matching credentials answer the
token that decodes to the stored user. -/
theorem login_spec_witness :
    login cmpEx usersEx "nobody" "secret123" =
      .unauthorizedL "Invalid credentials" ∧
    login cmpEx usersEx "admin" "wrongpass" =
      .unauthorizedL "Invalid credentials" ∧
    (login cmpEx usersEx "admin" "secret123" =
      .okL (generateToken 1 "admin") 1 "admin" ∧
     decodeToken (generateToken 1 "admin") = (1, "admin")) := by
  refine ⟨?_, ?_, ?_⟩
  · exact (login_spec cmpEx usersEx "nobody" "secret123"
      (by decide) (by decide)).1 (by decide)
  · exact ((login_spec cmpEx usersEx "admin" "wrongpass"
      (by decide) (by decide)).2 ⟨1, "admin", "hashed:secret123"⟩
      (by decide)).1 (by decide)
  · exact ((login_spec cmpEx usersEx "admin" "secret123"
      (by decide) (by decide)).2 ⟨1, "admin", "hashed:secret123"⟩
      (by decide)).2 (by decide)

def c10StoreA : CatStore :=
  (createCategory "Pumps" "Industrial pumps unit" none emptyCatStore).2

def c10StoreB : CatStore :=
  (createCategory "Valves" "Industrial valves unit" none c10StoreA).2

def c10Result : CatResp × CatStore :=
  updateCategory 2 (some "Pumps") none none c10StoreB

/-- C10: the category update handler performs no duplicate-name check,
so a state reached by two creates with distinct names, followed by an
update renaming the second row to the first name, holds two stored
categories with the same name, and the update answers success rather
than Conflict. -/
theorem categoryUpdate_breaks_name_uniqueness :
    c10StoreB.categories.map Category.name = ["Pumps", "Valves"] ∧
    c10Result.1 = .found ⟨2, "Pumps", "Industrial valves unit", none⟩ ∧
    c10Result.2.categories.map Category.name = ["Pumps", "Pumps"] ∧
    c10Result.2.categories.map Category.id = [1, 2] := by
  decide

end Machotech
